import Mathlib

/-!
Verification of the palette conversion core against its specification.

The development shallowly embeds two Rust source files:
* `src/palette/src/convert/from_into_color_unclamped.rs` — the conversion
  protocol (`FromColorUnclamped` / `IntoColorUnclamped`) and the bulk
  conversion adapter for `Vec<T>` and `Box<[T]>` buffers;
* `src/palette_derive/src/cast/array_cast.rs` — the `ArrayCast` code
  generator (`derive` and `is_allowed_repr`).

Owned contiguous buffers (`Vec<T>`, `Box<[T]>`) are embedded as `List T`.
Machine strings are embedded as `String`.
-/

set_option maxHeartbeats 1000000

namespace Palette

/-! ## Conversion protocol (from_into_color_unclamped.rs) -/

/-- `trait FromColorUnclamped<T>: Sized { fn from_color_unclamped(val: T) -> Self; }`
`S` plays the role of `Self`. -/
class FromColorUnclamped (S : Type) (T : Type) where
  from_color_unclamped : T → S

/-- `trait IntoColorUnclamped<T>: Sized { fn into_color_unclamped(self) -> T; }`
`S` plays the role of `Self`. -/
class IntoColorUnclamped (S : Type) (T : Type) where
  into_color_unclamped : S → T

/-- The blanket implementation
`impl<T, U> IntoColorUnclamped<U> for T where U: FromColorUnclamped<T>`:
`into_color_unclamped(self) = U::from_color_unclamped(self)`. -/
instance instIntoColorUnclamped (T U : Type) [FromColorUnclamped U T] :
    IntoColorUnclamped T U where
  into_color_unclamped self := FromColorUnclamped.from_color_unclamped self

/-- `trait ArrayCast { type Array; }` — the layout-descriptor marker with its
associated array type. -/
class ArrayCast (T : Type) where
  Array : Type

/-- Modelled from the spec: `cast::map_vec_in_place` is declared in the cast
module, which is not among the sources; §4.4 of the spec describes it: for each
index `i` in order, read the value at slot `i`, apply the element conversion and
write the result back into the same slot, with an empty buffer producing an
empty buffer and no per-element work. The second component of the result counts
the per-element invocations actually performed. -/
def map_vec_in_place {T U : Type} (f : T → U) : List T → List U × Nat
  | [] => ([], 0)
  | x :: xs =>
    let rest := map_vec_in_place f xs
    (f x :: rest.1, rest.2 + 1)

/-- Modelled from the spec: `cast::map_slice_box_in_place` is declared in the
cast module, which is not among the sources; §4.4 of the spec gives it the same
element-by-element in-place algorithm as the growable-buffer version, for a
fixed-length boxed buffer. The second component counts per-element
invocations. -/
def map_slice_box_in_place {T U : Type} (f : T → U) : List T → List U × Nat
  | [] => ([], 0)
  | x :: xs =>
    let rest := map_slice_box_in_place f xs
    (f x :: rest.1, rest.2 + 1)

/-- `impl<T, U> FromColorUnclamped<Vec<T>> for Vec<U>` where
`T: ArrayCast, U: ArrayCast<Array = T::Array> + FromColorUnclamped<T>`:
`from_color_unclamped(color) = cast::map_vec_in_place(color, U::from_color_unclamped)`.
The shape constraint `Array U = Array T` is stated on the theorems. -/
def vec_from_color_unclamped {T U : Type} [ArrayCast T] [ArrayCast U]
    [FromColorUnclamped U T] (color : List T) : List U × Nat :=
  map_vec_in_place FromColorUnclamped.from_color_unclamped color

/-- `impl<T, U> FromColorUnclamped<Box<[T]>> for Box<[U]>` where
`T: ArrayCast, U: ArrayCast<Array = T::Array> + FromColorUnclamped<T>`:
`from_color_unclamped(color) = cast::map_slice_box_in_place(color, U::from_color_unclamped)`. -/
def box_from_color_unclamped {T U : Type} [ArrayCast T] [ArrayCast U]
    [FromColorUnclamped U T] (color : List T) : List U × Nat :=
  map_slice_box_in_place FromColorUnclamped.from_color_unclamped color

/-! Demonstration color types, used to instantiate the generic theorems at
concrete inputs. The per-color-space math is an external collaborator in the
spec, so the concrete conversion function is arbitrary. -/

structure DemoLch where
  l : Int
  c : Int
  h : Int
  deriving DecidableEq

structure DemoRgb where
  r : Int
  g : Int
  b : Int
  deriving DecidableEq

instance : FromColorUnclamped DemoRgb DemoLch where
  from_color_unclamped x := ⟨x.l + x.c, x.c - x.h, x.h⟩

instance : ArrayCast DemoLch where
  Array := Fin 3 → Int

instance : ArrayCast DemoRgb where
  Array := Fin 3 → Int

theorem map_vec_in_place_eq {T U : Type} (f : T → U) (v : List T) :
    map_vec_in_place f v = (v.map f, v.length) := by
  induction v with
  | nil => rfl
  | cons x xs ih => simp [map_vec_in_place, ih]

theorem map_slice_box_in_place_eq {T U : Type} (f : T → U) (v : List T) :
    map_slice_box_in_place f v = (v.map f, v.length) := by
  induction v with
  | nil => rfl
  | cons x xs ih => simp [map_slice_box_in_place, ih]

/-- C1: for every pair of types `T`, `U` such that `U` implements the forward
conversion `from_color_unclamped` from `T`, the auto-derived reverse call
`into_color_unclamped` on any `T` value returns exactly the result of
`U::from_color_unclamped` on that value; the reverse call is the single blanket
definition `instIntoColorUnclamped`, which delegates to the forward
implementation. -/
theorem C1_into_eq_from (T U : Type) [FromColorUnclamped U T] (x : T) :
    (IntoColorUnclamped.into_color_unclamped x : U)
      = FromColorUnclamped.from_color_unclamped x :=
  rfl

/-- C2: for color types `T`, `U` carrying layout descriptors with the same
array shape and with `U` convertible from `T`, bulk conversion of a growable
buffer or a fixed-length boxed buffer of length `k` yields a buffer of length
`k` whose element at index `i` is `U::from_color_unclamped` of the input
element at index `i`; an empty buffer yields an empty buffer with zero
per-element conversion invocations. -/
theorem C2_bulk_conversion (T U : Type) [ArrayCast T] [ArrayCast U]
    [FromColorUnclamped U T] (hshape : ArrayCast.Array T = ArrayCast.Array U)
    (v : List T) :
    ((vec_from_color_unclamped (U := U) v).1.length = v.length
      ∧ ∀ (i : Nat) (hi : i < v.length)
          (hi2 : i < (vec_from_color_unclamped (U := U) v).1.length),
          (vec_from_color_unclamped (U := U) v).1.get ⟨i, hi2⟩
            = FromColorUnclamped.from_color_unclamped (v.get ⟨i, hi⟩))
    ∧ ((box_from_color_unclamped (U := U) v).1.length = v.length
      ∧ ∀ (i : Nat) (hi : i < v.length)
          (hi2 : i < (box_from_color_unclamped (U := U) v).1.length),
          (box_from_color_unclamped (U := U) v).1.get ⟨i, hi2⟩
            = FromColorUnclamped.from_color_unclamped (v.get ⟨i, hi⟩))
    ∧ vec_from_color_unclamped (U := U) ([] : List T) = ([], 0)
    ∧ box_from_color_unclamped (U := U) ([] : List T) = ([], 0) := by
  refine ⟨⟨?_, ?_⟩, ⟨?_, ?_⟩, rfl, rfl⟩
  · simp [vec_from_color_unclamped, map_vec_in_place_eq]
  · intro i hi hi2
    simp [vec_from_color_unclamped, map_vec_in_place_eq]
  · simp [box_from_color_unclamped, map_slice_box_in_place_eq]
  · intro i hi hi2
    simp [box_from_color_unclamped, map_slice_box_in_place_eq]

theorem C2_bulk_conversion_witness :
    (vec_from_color_unclamped (U := DemoRgb) [(⟨1, 2, 3⟩ : DemoLch)]).1.length = 1
      ∧ vec_from_color_unclamped (U := DemoRgb) ([] : List DemoLch) = ([], 0) :=
  ⟨(C2_bulk_conversion DemoLch DemoRgb rfl [⟨1, 2, 3⟩]).1.1,
   (C2_bulk_conversion DemoLch DemoRgb rfl []).2.2.1⟩

/-! ## Code generator (palette_derive, array_cast.rs) -/

/-- `meta::IdentOrIndex`: a field is addressed either by its name (named
structs) or by its position (tuple structs). -/
inductive IdentOrIndex where
  | ident (name : String)
  | index (index : Nat)
  deriving DecidableEq

/-- The span carried by a `syn::Error`: either the call site or a specific
field (`syn::Error::new_spanned(&field, ...)`). -/
inductive ErrSpan where
  | callSite
  | field (field : IdentOrIndex)
  deriving DecidableEq

/-- `syn::Error`: a diagnostic with a span and a message. -/
structure SynError where
  span : ErrSpan
  message : String
  deriving DecidableEq

/-- A `syn::Attribute`. Modelled from the spec: `meta::parse_tuple_attribute`
is not among the sources, so an attribute carries the (deterministic) result of
parsing its token stream — either the list of identifiers inside the
parentheses or a parse error. `name` is `attribute.path.get_ident()`. -/
structure Attr where
  name : String
  tokens : Except SynError (List String)

/-- A field of a struct declaration: its optional name and its declared
type (types are represented by their token text). -/
structure FieldInput where
  ident : Option String
  ty : String

/-- `syn::Fields`: named, unnamed (tuple) or unit. -/
inductive FieldsShape where
  | named (fields : List FieldInput)
  | unnamed (fields : List FieldInput)
  | unit

/-- `syn::Data`: struct, enum or union. -/
inductive DataShape where
  | structData (fields : FieldsShape)
  | enumData
  | unionData

/-- `meta::FieldAttributes`. Modelled from the spec: `meta::parse_field_attributes`
is not among the sources; the spec's §3 "field configuration" — the
excluded-field set (`zero_size_fields`) and the field→type-override map
(`type_substitutes`) — is therefore taken as a given input. -/
structure FieldAttributes where
  zero_size_fields : List IdentOrIndex
  type_substitutes : List (IdentOrIndex × String)

/-- The `DeriveInput` pieces the generator reads: the type name, its
attributes and its data shape. -/
structure DeriveInput where
  ident : String
  attrs : List Attr
  data : DataShape

def enumErrorMessage : String :=
  "`ArrayCast` cannot be derived for enums, because of the discriminant"

def unionErrorMessage : String :=
  "`ArrayCast` cannot be derived for unions"

def noFieldsErrorMessage : String :=
  "`ArrayCast` can only be derived for structs with one or more fields"

def expectedTypeMessage (expected : String) : String :=
  "expected fields to have type `" ++ expected ++ "`"

def missingReprMessage (ident : String) : String :=
  "a `#[repr(C)]` or `#[repr(transparent)]` attribute is required to give `"
    ++ ident ++ "` a fixed memory layout"

/-- `items.iter().any(|item| item == "C" || item == "transparent")`. -/
def allowedReprItems (items : List String) : Bool :=
  items.any fun item => item == "C" || item == "transparent"

/-- The loop of `is_allowed_repr`, with the accumulated parse errors as an
explicit argument: for each attribute named `repr`, a failed token parse is
pushed onto `errors` and the scan continues; a successful parse containing
`C` or `transparent` returns `Ok(true)` immediately; after the scan, the
result is `Ok(false)` if no errors were collected and `Err(errors)`
otherwise. -/
def is_allowed_reprGo : List Attr → List SynError → Except (List SynError) Bool
  | [], errors => if errors.isEmpty then Except.ok false else Except.error errors
  | attrib :: rest, errors =>
    if attrib.name = "repr" then
      match attrib.tokens with
      | Except.error e => is_allowed_reprGo rest (errors ++ [e])
      | Except.ok items =>
        if allowedReprItems items then Except.ok true
        else is_allowed_reprGo rest errors
    else is_allowed_reprGo rest errors

/-- `fn is_allowed_repr(attributes: &[Attribute]) -> Result<bool, Vec<syn::Error>>`. -/
def is_allowed_repr (attributes : List Attr) : Except (List SynError) Bool :=
  is_allowed_reprGo attributes []

/-- `field.ident.map(IdentOrIndex::Ident).unwrap_or_else(|| IdentOrIndex::Index(index.into()))`. -/
def fieldKey (index : Nat) (field : FieldInput) : IdentOrIndex :=
  (field.ident.map IdentOrIndex.ident).getD (IdentOrIndex.index index)

/-- Extraction of `all_fields` from the struct's shape: named fields, unnamed
fields, or the empty default for a unit struct. -/
def allFieldsOf : FieldsShape → List FieldInput
  | FieldsShape.named fields => fields
  | FieldsShape.unnamed fields => fields
  | FieldsShape.unit => []

/-- `all_fields.into_iter().enumerate().map(...)`: pair each field's key (name
or positional index) with its declared type. -/
def keyedFields (index : Nat) : List FieldInput → List (IdentOrIndex × String)
  | [] => []
  | field :: rest => (fieldKey index field, field.ty) :: keyedFields (index + 1) rest

/-- `HashSet::contains` on the excluded-field set. -/
def memberOf (target : IdentOrIndex) : List IdentOrIndex → Bool
  | [] => false
  | x :: rest => if x = target then true else memberOf target rest

/-- `HashMap::get` on the field→type-override map (first matching key). -/
def lookupSubstitute : List (IdentOrIndex × String) → IdentOrIndex → Option String
  | [], _ => none
  | (key, value) :: rest, target =>
    if key = target then some value else lookupSubstitute rest target

/-- `fields_meta.type_substitutes.get(&field).cloned().unwrap_or(ty)`: the
resolved type of a field after the type-override map. -/
def resolveTy (substitutes : List (IdentOrIndex × String))
    (field : IdentOrIndex × String) : String :=
  (lookupSubstitute substitutes field.1).getD field.2

/-- The `fields` iterator of `derive`: enumerate and key all fields, then
`filter(|&(ref field, _)| !fields_meta.zero_size_fields.contains(field))`. -/
def remainingFields (fields_meta : FieldAttributes) (fs : FieldsShape) :
    List (IdentOrIndex × String) :=
  (keyedFields 0 (allFieldsOf fs)).filter fun field =>
    ! memberOf field.1 fields_meta.zero_size_fields

/-- The `for (field, ty) in fields` loop of `derive`, carrying
`number_of_channels`, `field_type` and `errors`: each field's type is resolved
through the override map, the channel count is incremented, the first resolved
type becomes the expected type, and each later field whose resolved type
differs pushes one error spanned at that field. -/
def channelLoop (substitutes : List (IdentOrIndex × String)) :
    List (IdentOrIndex × String) → Nat → Option String → List SynError →
    Nat × Option String × List SynError
  | [], number_of_channels, field_type, errors =>
    (number_of_channels, field_type, errors)
  | field :: rest, number_of_channels, field_type, errors =>
    let ty := resolveTy substitutes field
    match field_type with
    | some expected =>
      if expected ≠ ty then
        channelLoop substitutes rest (number_of_channels + 1) (some expected)
          (errors ++ [⟨ErrSpan.field field.1, expectedTypeMessage expected⟩])
      else
        channelLoop substitutes rest (number_of_channels + 1) (some expected) errors
    | none =>
      channelLoop substitutes rest (number_of_channels + 1) (some ty) errors

/-- The emitted `ArrayCast` implementation:
`unsafe impl ArrayCast for #ident { type Array = [#field_type; #number_of_channels]; }`,
referencing the trait through the internal or external module path. -/
structure ArrayCastImpl where
  ident : String
  internal : Bool
  channelType : String
  count : Nat
  deriving DecidableEq

/-- The successful output of `derive`: the implementation plus the compile
errors appended to the same token stream
(`implementation.extend(errors.iter().map(syn::Error::to_compile_error))`). -/
structure Output where
  impl : ArrayCastImpl
  appendedErrors : List SynError
  deriving DecidableEq

/-- `pub fn derive(tokens: TokenStream) -> Result<TokenStream, Vec<syn::Error>>`
for the `ArrayCast` derive. The already-parsed `DeriveInput` pieces are the
input; `fields_meta` is the field configuration (`meta::parse_field_attributes`)
and `internal` the addressing flag (`item_meta.internal` from
`meta::parse_namespaced_attributes`), both parsed by the meta module that is
not among the sources and modelled here as given, infallible inputs. -/
def derive (input : DeriveInput) (fields_meta : FieldAttributes)
    (internal : Bool) : Except (List SynError) Output :=
  match is_allowed_repr input.attrs with
  | Except.error errors => Except.error errors
  | Except.ok allowed_repr =>
    match input.data with
    | DataShape.enumData =>
      Except.error [⟨ErrSpan.callSite, enumErrorMessage⟩]
    | DataShape.unionData =>
      Except.error [⟨ErrSpan.callSite, unionErrorMessage⟩]
    | DataShape.structData fs =>
      let fields := remainingFields fields_meta fs
      let result := channelLoop fields_meta.type_substitutes fields 0 none []
      let number_of_channels := result.1
      let field_type := result.2.1
      let errors := result.2.2
      let errors :=
        if allowed_repr then errors
        else errors ++ [⟨ErrSpan.callSite, missingReprMessage input.ident⟩]
      match field_type with
      | some ft =>
        Except.ok ⟨⟨input.ident, internal, ft, number_of_channels⟩, errors⟩
      | none =>
        Except.error (errors ++ [⟨ErrSpan.callSite, noFieldsErrorMessage⟩])

/-! ## Helper lemmas about the channel loop -/

/-- Once the expected channel type is established, the loop keeps it, counts
every further field, and pushes exactly one error per field whose resolved
type differs from the expected one, in field order. -/
theorem channelLoop_some (substitutes : List (IdentOrIndex × String))
    (expected : String) (fields : List (IdentOrIndex × String))
    (n : Nat) (errors : List SynError) :
    channelLoop substitutes fields n (some expected) errors
      = (n + fields.length, some expected,
         errors ++ fields.filterMap fun q =>
           if expected ≠ resolveTy substitutes q
           then some ⟨ErrSpan.field q.1, expectedTypeMessage expected⟩
           else none) := by
  induction fields generalizing n errors with
  | nil => simp [channelLoop]
  | cons field rest ih =>
    have hn : n + 1 + rest.length = n + (rest.length + 1) := by omega
    by_cases h : expected ≠ resolveTy substitutes field
    · simp [channelLoop, if_pos h, ih, hn, List.filterMap_cons, h]
    · have heq : resolveTy substitutes field = expected := (not_ne_iff.mp h).symm
      simp [channelLoop, heq, if_neg h, ih, hn, List.filterMap_cons]

/-- Started on a non-empty field list, the loop establishes the first field's
resolved type as the expected type, counts all fields, and produces exactly
the mismatch errors of the later fields. -/
theorem channelLoop_start (substitutes : List (IdentOrIndex × String))
    (field : IdentOrIndex × String) (rest : List (IdentOrIndex × String)) :
    channelLoop substitutes (field :: rest) 0 none []
      = (1 + rest.length, some (resolveTy substitutes field),
         rest.filterMap fun q =>
           if resolveTy substitutes field ≠ resolveTy substitutes q
           then some ⟨ErrSpan.field q.1,
                  expectedTypeMessage (resolveTy substitutes field)⟩
           else none) := by
  simp only [channelLoop, channelLoop_some, List.nil_append]

/-! ## Helper lemmas about the repr scan -/

/-- Whether some `repr` attribute parses successfully and contains the
identifier `C` or `transparent` (the spec's "fixed-layout attribute is
present"). -/
def containsAllowedRepr : List Attr → Bool
  | [] => false
  | attrib :: rest =>
    (if attrib.name = "repr" then
       match attrib.tokens with
       | Except.ok items => allowedReprItems items
       | Except.error _ => false
     else false)
    || containsAllowedRepr rest

/-- The parse errors of the malformed `repr` attributes, in attribute order. -/
def reprParseErrors : List Attr → List SynError
  | [] => []
  | attrib :: rest =>
    if attrib.name = "repr" then
      match attrib.tokens with
      | Except.error e => e :: reprParseErrors rest
      | Except.ok _ => reprParseErrors rest
    else reprParseErrors rest

theorem is_allowed_reprGo_of_contains (attributes : List Attr)
    (hc : containsAllowedRepr attributes = true) (errors : List SynError) :
    is_allowed_reprGo attributes errors = Except.ok true := by
  induction attributes generalizing errors with
  | nil => simp [containsAllowedRepr] at hc
  | cons attrib rest ih =>
    by_cases hname : attrib.name = "repr"
    · cases htok : attrib.tokens with
      | error e =>
        simp only [containsAllowedRepr, hname, if_pos, htok, Bool.false_or] at hc
        simp [is_allowed_reprGo, hname, htok, ih hc]
      | ok items =>
        by_cases hallowed : allowedReprItems items = true
        · simp [is_allowed_reprGo, hname, htok, hallowed]
        · simp only [containsAllowedRepr, hname, if_pos, htok,
            Bool.or_eq_true] at hc
          rcases hc with hc | hc
          · exact absurd hc hallowed
          · simp [is_allowed_reprGo, hname, htok, hallowed, ih hc]
    · simp only [containsAllowedRepr, hname, if_neg, Bool.false_or] at hc
      simp [is_allowed_reprGo, hname, ih hc]

theorem is_allowed_reprGo_of_not_contains (attributes : List Attr)
    (hc : containsAllowedRepr attributes = false) (errors : List SynError) :
    is_allowed_reprGo attributes errors
      = (if (errors ++ reprParseErrors attributes).isEmpty
         then Except.ok false
         else Except.error (errors ++ reprParseErrors attributes)) := by
  induction attributes generalizing errors with
  | nil => simp [is_allowed_reprGo, reprParseErrors]
  | cons attrib rest ih =>
    by_cases hname : attrib.name = "repr"
    · cases htok : attrib.tokens with
      | error e =>
        simp only [containsAllowedRepr, hname, if_pos, htok, Bool.false_or] at hc
        simp [is_allowed_reprGo, hname, htok, ih hc, reprParseErrors]
      | ok items =>
        simp only [containsAllowedRepr, hname, if_pos, htok,
          Bool.or_eq_false_iff] at hc
        simp [is_allowed_reprGo, hname, htok, hc.1, ih hc.2, reprParseErrors]
    · simp only [containsAllowedRepr, hname, if_neg, Bool.false_or] at hc
      simp [is_allowed_reprGo, hname, ih hc, reprParseErrors]

theorem is_allowed_repr_iff_contains (attributes : List Attr) :
    is_allowed_repr attributes = Except.ok true
      ↔ containsAllowedRepr attributes = true := by
  constructor
  · intro h
    cases hc : containsAllowedRepr attributes
    · rw [is_allowed_repr, is_allowed_reprGo_of_not_contains attributes hc] at h
      split at h
      · exact absurd h (by simp)
      · exact absurd h (by simp)
    · rfl
  · intro hc
    exact is_allowed_reprGo_of_contains attributes hc []

/-! ## Helper lemmas about derive on struct inputs -/

theorem derive_struct_cons (ident : String) (attrs : List Attr)
    (fs : FieldsShape) (fields_meta : FieldAttributes)
    (internal allowed : Bool) (field : IdentOrIndex × String)
    (rest : List (IdentOrIndex × String))
    (hrepr : is_allowed_repr attrs = Except.ok allowed)
    (hfields : remainingFields fields_meta fs = field :: rest) :
    derive ⟨ident, attrs, DataShape.structData fs⟩ fields_meta internal
      = Except.ok ⟨⟨ident, internal,
            resolveTy fields_meta.type_substitutes field, 1 + rest.length⟩,
          (rest.filterMap fun q =>
            if resolveTy fields_meta.type_substitutes field
                 ≠ resolveTy fields_meta.type_substitutes q
            then some ⟨ErrSpan.field q.1,
                   expectedTypeMessage (resolveTy fields_meta.type_substitutes field)⟩
            else none)
          ++ (if allowed then []
              else [⟨ErrSpan.callSite, missingReprMessage ident⟩])⟩ := by
  simp only [derive, hrepr, hfields, channelLoop_start]
  cases allowed <;> simp

theorem derive_struct_nil (ident : String) (attrs : List Attr)
    (fs : FieldsShape) (fields_meta : FieldAttributes)
    (internal allowed : Bool)
    (hrepr : is_allowed_repr attrs = Except.ok allowed)
    (hfields : remainingFields fields_meta fs = []) :
    derive ⟨ident, attrs, DataShape.structData fs⟩ fields_meta internal
      = Except.error
          ((if allowed then []
            else [⟨ErrSpan.callSite, missingReprMessage ident⟩])
           ++ [⟨ErrSpan.callSite, noFieldsErrorMessage⟩]) := by
  simp only [derive, hrepr, hfields]
  cases allowed <;> simp [channelLoop]

/-! ## Claims about the code generator -/

/-- C3: every emitted layout-descriptor implementation has array shape
`[C; N]` with `N ≥ 1`, `N` the number of fields remaining after removing the
excluded-field set, and `C` the shared resolved type of those fields whenever
they share one. -/
theorem C3_layout_descriptor_shape (input : DeriveInput)
    (fields_meta : FieldAttributes) (internal : Bool) (out : Output)
    (hok : derive input fields_meta internal = Except.ok out) :
    1 ≤ out.impl.count
    ∧ ∀ fs, input.data = DataShape.structData fs →
        out.impl.count = (remainingFields fields_meta fs).length
        ∧ ∀ t, (∀ q ∈ remainingFields fields_meta fs,
              resolveTy fields_meta.type_substitutes q = t) →
            out.impl.channelType = t := by
  obtain ⟨ident, attrs, data⟩ := input
  cases hrepr : is_allowed_repr attrs with
  | error errs => simp [derive, hrepr] at hok
  | ok allowed =>
    cases data with
    | enumData => simp [derive, hrepr] at hok
    | unionData => simp [derive, hrepr] at hok
    | structData fs =>
      cases hfields : remainingFields fields_meta fs with
      | nil =>
        rw [derive_struct_nil ident attrs fs fields_meta internal allowed
          hrepr hfields] at hok
        exact absurd hok (by simp)
      | cons field rest =>
        rw [derive_struct_cons ident attrs fs fields_meta internal allowed
          field rest hrepr hfields] at hok
        have hout := (Except.ok.injEq _ _).mp hok
        subst hout
        refine ⟨by simp, ?_⟩
        intro fs2 hfs2
        have hfs : fs = fs2 := by injection hfs2
        subst hfs
        rw [hfields]
        constructor
        · show 1 + rest.length = (field :: rest).length
          simp only [List.length_cons]
          omega
        · intro t ht
          have hfirst := ht field (List.mem_cons_self field rest)
          show resolveTy fields_meta.type_substitutes field = t
          exact hfirst

theorem C3_layout_descriptor_shape_witness :
    derive ⟨"Rgba", [⟨"repr", Except.ok ["C"]⟩],
        DataShape.structData (FieldsShape.named
          [⟨some "red", "f32"⟩, ⟨some "green", "f32"⟩, ⟨some "blue", "f32"⟩,
           ⟨some "standard", "PhantomData"⟩])⟩
      ⟨[IdentOrIndex.ident "standard"], []⟩ false
      = Except.ok ⟨⟨"Rgba", false, "f32", 3⟩, []⟩
    ∧ 1 ≤ (3 : Nat) :=
  ⟨rfl,
   (C3_layout_descriptor_shape
     ⟨"Rgba", [⟨"repr", Except.ok ["C"]⟩],
       DataShape.structData (FieldsShape.named
         [⟨some "red", "f32"⟩, ⟨some "green", "f32"⟩, ⟨some "blue", "f32"⟩,
          ⟨some "standard", "PhantomData"⟩])⟩
     ⟨[IdentOrIndex.ident "standard"], []⟩ false
     ⟨⟨"Rgba", false, "f32", 3⟩, []⟩ rfl).1⟩

/-- C4 counterexample: an enum input whose only attribute is a `repr`
attribute with malformed contents is not rejected with the enum shape
diagnostic; the generator fails with the repr parse error instead, so the
shape check is not the first check. -/
theorem C4_shape_check_counterexample :
    derive ⟨"Foo", [⟨"repr", Except.error ⟨ErrSpan.callSite, "expected identifier"⟩⟩],
        DataShape.enumData⟩ ⟨[], []⟩ false
      = Except.error [⟨ErrSpan.callSite, "expected identifier"⟩]
    ∧ "expected identifier" ≠ enumErrorMessage
    ∧ "expected identifier" ≠ unionErrorMessage :=
  ⟨rfl, by decide, by decide⟩

/-- C4 (amended): for enum and union inputs, provided the repr-attribute scan
completes (it returns allowed or not-allowed rather than failing on a
malformed `repr` attribute), the generator rejects the input with the single
shape diagnostic naming the specific reason and emits no implementation; no
further checks run. -/
theorem C4_shape_check (ident : String) (attrs : List Attr) (data : DataShape)
    (fields_meta : FieldAttributes) (internal allowed : Bool)
    (hrepr : is_allowed_repr attrs = Except.ok allowed) :
    (data = DataShape.enumData →
      derive ⟨ident, attrs, data⟩ fields_meta internal
        = Except.error [⟨ErrSpan.callSite, enumErrorMessage⟩])
    ∧ (data = DataShape.unionData →
      derive ⟨ident, attrs, data⟩ fields_meta internal
        = Except.error [⟨ErrSpan.callSite, unionErrorMessage⟩]) := by
  constructor <;> intro hd <;> subst hd <;> simp [derive, hrepr]

theorem C4_shape_check_witness :
    is_allowed_repr ([] : List Attr) = Except.ok false
    ∧ derive ⟨"Foo", [], DataShape.enumData⟩ ⟨[], []⟩ false
        = Except.error [⟨ErrSpan.callSite, enumErrorMessage⟩] :=
  ⟨rfl,
   (C4_shape_check "Foo" [] DataShape.enumData ⟨[], []⟩ false false rfl).1 rfl⟩

/-- C5: the homogeneity check takes the first remaining field's resolved type
as the expected channel type and produces one separate diagnostic for each
subsequent field whose resolved type differs, naming that field and the
expected type, without stopping at the first mismatch; for a struct with
fields of types f32, f32, i32 and no overrides it produces exactly one such
diagnostic, naming the third field and citing f32. -/
theorem C5_homogeneity_check :
    (∀ (substitutes : List (IdentOrIndex × String))
        (field : IdentOrIndex × String) (rest : List (IdentOrIndex × String)),
      (channelLoop substitutes (field :: rest) 0 none []).2
        = (some (resolveTy substitutes field),
           rest.filterMap fun q =>
             if resolveTy substitutes field ≠ resolveTy substitutes q
             then some ⟨ErrSpan.field q.1,
                    expectedTypeMessage (resolveTy substitutes field)⟩
             else none))
    ∧ derive ⟨"Color", [⟨"repr", Except.ok ["C"]⟩],
          DataShape.structData (FieldsShape.named
            [⟨some "red", "f32"⟩, ⟨some "green", "f32"⟩, ⟨some "blue", "i32"⟩])⟩
        ⟨[], []⟩ false
        = Except.ok ⟨⟨"Color", false, "f32", 3⟩,
            [⟨ErrSpan.field (IdentOrIndex.ident "blue"),
              "expected fields to have type `f32`"⟩]⟩ := by
  constructor
  · intro substitutes field rest
    rw [channelLoop_start]
  · rfl

/-- C6: whenever at least one channel type was established (at least one
non-excluded field exists and the repr scan completed), the generator returns
successfully with the layout-descriptor implementation and appends to the same
output every diagnostic accumulated by the layout-attribute check and the
homogeneity check; the non-fatal diagnostics never suppress the implementation
and are never dropped. -/
theorem C6_emission_with_diagnostics (ident : String) (attrs : List Attr)
    (fs : FieldsShape) (fields_meta : FieldAttributes)
    (internal allowed : Bool) (field : IdentOrIndex × String)
    (rest : List (IdentOrIndex × String))
    (hrepr : is_allowed_repr attrs = Except.ok allowed)
    (hfields : remainingFields fields_meta fs = field :: rest) :
    derive ⟨ident, attrs, DataShape.structData fs⟩ fields_meta internal
      = Except.ok ⟨⟨ident, internal,
            resolveTy fields_meta.type_substitutes field, 1 + rest.length⟩,
          (rest.filterMap fun q =>
            if resolveTy fields_meta.type_substitutes field
                 ≠ resolveTy fields_meta.type_substitutes q
            then some ⟨ErrSpan.field q.1,
                   expectedTypeMessage (resolveTy fields_meta.type_substitutes field)⟩
            else none)
          ++ (if allowed then []
              else [⟨ErrSpan.callSite, missingReprMessage ident⟩])⟩ :=
  derive_struct_cons ident attrs fs fields_meta internal allowed field rest
    hrepr hfields

theorem C6_emission_with_diagnostics_witness :
    is_allowed_repr ([] : List Attr) = Except.ok false
    ∧ remainingFields ⟨[], []⟩ (FieldsShape.named
        [⟨some "a", "f32"⟩, ⟨some "b", "i32"⟩])
        = [(IdentOrIndex.ident "a", "f32"), (IdentOrIndex.ident "b", "i32")]
    ∧ derive ⟨"Foo", [], DataShape.structData (FieldsShape.named
          [⟨some "a", "f32"⟩, ⟨some "b", "i32"⟩])⟩ ⟨[], []⟩ false
        = Except.ok ⟨⟨"Foo", false, "f32", 2⟩,
            [⟨ErrSpan.field (IdentOrIndex.ident "b"),
              expectedTypeMessage "f32"⟩,
             ⟨ErrSpan.callSite, missingReprMessage "Foo"⟩]⟩ :=
  ⟨rfl, rfl,
   C6_emission_with_diagnostics "Foo" [] (FieldsShape.named
       [⟨some "a", "f32"⟩, ⟨some "b", "i32"⟩]) ⟨[], []⟩ false false
     (IdentOrIndex.ident "a", "f32") [(IdentOrIndex.ident "b", "i32")]
     rfl rfl⟩

/-- C7 counterexample: a struct whose only attribute is a malformed `repr`
attribute has no repr attribute containing `C` or `transparent`, yet the
generator does not add the missing-layout diagnostic and does not run channel
collection: it fails fatally with only the parse error. -/
theorem C7_repr_requirement_counterexample :
    derive ⟨"Foo", [⟨"repr", Except.error ⟨ErrSpan.callSite, "expected identifier"⟩⟩],
        DataShape.structData (FieldsShape.named [⟨some "red", "f32"⟩])⟩
      ⟨[], []⟩ false
      = Except.error [⟨ErrSpan.callSite, "expected identifier"⟩]
    ∧ "expected identifier" ≠ missingReprMessage "Foo" :=
  ⟨rfl, by decide⟩

/-- C7 (amended): the fixed-layout requirement is satisfied exactly when some
repr attribute parses and contains the identifier `C` or `transparent`; when
no such attribute is present and every repr attribute parses (the scan returns
not-allowed rather than failing), the generator adds the diagnostic requiring
`#[repr(C)]` or `#[repr(transparent)]`, and channel collection and the
homogeneity check still run with their diagnostics collected. -/
theorem C7_repr_requirement :
    (∀ attributes : List Attr,
      is_allowed_repr attributes = Except.ok true
        ↔ containsAllowedRepr attributes = true)
    ∧ ∀ (ident : String) (attrs : List Attr) (fs : FieldsShape)
        (fields_meta : FieldAttributes) (internal : Bool)
        (field : IdentOrIndex × String) (rest : List (IdentOrIndex × String)),
        is_allowed_repr attrs = Except.ok false →
        remainingFields fields_meta fs = field :: rest →
        derive ⟨ident, attrs, DataShape.structData fs⟩ fields_meta internal
          = Except.ok ⟨⟨ident, internal,
                resolveTy fields_meta.type_substitutes field, 1 + rest.length⟩,
              (rest.filterMap fun q =>
                if resolveTy fields_meta.type_substitutes field
                     ≠ resolveTy fields_meta.type_substitutes q
                then some ⟨ErrSpan.field q.1,
                       expectedTypeMessage (resolveTy fields_meta.type_substitutes field)⟩
                else none)
              ++ [⟨ErrSpan.callSite, missingReprMessage ident⟩]⟩ := by
  constructor
  · exact is_allowed_repr_iff_contains
  · intro ident attrs fs fields_meta internal field rest hrepr hfields
    have h := derive_struct_cons ident attrs fs fields_meta internal false
      field rest hrepr hfields
    simpa using h

theorem C7_repr_requirement_witness :
    is_allowed_repr ([] : List Attr) = Except.ok false
    ∧ derive ⟨"Foo", [], DataShape.structData (FieldsShape.named
          [⟨some "a", "f32"⟩])⟩ ⟨[], []⟩ false
        = Except.ok ⟨⟨"Foo", false, "f32", 1⟩,
            [⟨ErrSpan.callSite, missingReprMessage "Foo"⟩]⟩ :=
  ⟨rfl,
   C7_repr_requirement.2 "Foo" [] (FieldsShape.named [⟨some "a", "f32"⟩])
     ⟨[], []⟩ false (IdentOrIndex.ident "a", "f32") [] rfl rfl⟩

/-- C8 counterexample: a unit struct whose only attribute is a malformed
`repr` attribute has zero channel fields, yet the generator does not return
the no-fields diagnostic; it fails with only the repr parse error. -/
theorem C8_no_fields_counterexample :
    derive ⟨"Foo", [⟨"repr", Except.error ⟨ErrSpan.callSite, "expected identifier"⟩⟩],
        DataShape.structData FieldsShape.unit⟩ ⟨[], []⟩ false
      = Except.error [⟨ErrSpan.callSite, "expected identifier"⟩]
    ∧ "expected identifier" ≠ noFieldsErrorMessage :=
  ⟨rfl, by decide⟩

/-- C8 (amended): for every struct input where zero channel fields remain
after exclusion (including unit structs), provided the repr-attribute scan
completes, the generator returns fatally with the no-fields diagnostic and
emits no implementation; any accumulated layout-attribute diagnostic is
returned together with it. -/
theorem C8_no_fields_fatal (ident : String) (attrs : List Attr)
    (fs : FieldsShape) (fields_meta : FieldAttributes)
    (internal allowed : Bool)
    (hrepr : is_allowed_repr attrs = Except.ok allowed)
    (hfields : remainingFields fields_meta fs = []) :
    derive ⟨ident, attrs, DataShape.structData fs⟩ fields_meta internal
      = Except.error
          ((if allowed then []
            else [⟨ErrSpan.callSite, missingReprMessage ident⟩])
           ++ [⟨ErrSpan.callSite, noFieldsErrorMessage⟩]) :=
  derive_struct_nil ident attrs fs fields_meta internal allowed hrepr hfields

theorem C8_no_fields_fatal_witness :
    is_allowed_repr [(⟨"repr", Except.ok ["C"]⟩ : Attr)] = Except.ok true
    ∧ derive ⟨"Foo", [⟨"repr", Except.ok ["C"]⟩],
          DataShape.structData FieldsShape.unit⟩ ⟨[], []⟩ false
        = Except.error [⟨ErrSpan.callSite, noFieldsErrorMessage⟩] :=
  ⟨rfl,
   C8_no_fields_fatal "Foo" [⟨"repr", Except.ok ["C"]⟩] FieldsShape.unit
     ⟨[], []⟩ false true rfl rfl⟩

/-- C9: repr attributes are scanned before the shape check: if no repr
attribute contains `C` or `transparent` and at least one repr attribute fails
to parse, the derive fails fatally with exactly those parse errors — even for
an enum input, whose shape diagnostic is then never produced; conversely, if
some repr attribute does contain `C` or `transparent`, parse errors from other
malformed repr attributes are silently discarded and an enum input gets the
shape diagnostic. -/
theorem C9_repr_preemption (ident : String) (attrs : List Attr)
    (data : DataShape) (fields_meta : FieldAttributes) (internal : Bool) :
    (containsAllowedRepr attrs = false → reprParseErrors attrs ≠ [] →
      derive ⟨ident, attrs, data⟩ fields_meta internal
        = Except.error (reprParseErrors attrs))
    ∧ (containsAllowedRepr attrs = true → data = DataShape.enumData →
      derive ⟨ident, attrs, data⟩ fields_meta internal
        = Except.error [⟨ErrSpan.callSite, enumErrorMessage⟩]) := by
  constructor
  · intro hc hne
    have h := is_allowed_reprGo_of_not_contains attrs hc []
    rw [List.nil_append] at h
    have hempty : (reprParseErrors attrs).isEmpty = false := by
      cases hrpe : reprParseErrors attrs
      · exact absurd hrpe hne
      · rfl
    rw [hempty] at h
    simp only [Bool.false_eq_true, if_false] at h
    have h2 : is_allowed_repr attrs = Except.error (reprParseErrors attrs) := h
    simp [derive, h2]
  · intro hc hd
    subst hd
    have h2 : is_allowed_repr attrs = Except.ok true :=
      is_allowed_reprGo_of_contains attrs hc []
    simp [derive, h2]

theorem C9_repr_preemption_witness :
    (containsAllowedRepr
        [⟨"repr", Except.error ⟨ErrSpan.callSite, "bad tokens"⟩⟩] = false
      ∧ reprParseErrors
          [⟨"repr", Except.error ⟨ErrSpan.callSite, "bad tokens"⟩⟩] ≠ []
      ∧ derive ⟨"Foo", [⟨"repr", Except.error ⟨ErrSpan.callSite, "bad tokens"⟩⟩],
            DataShape.enumData⟩ ⟨[], []⟩ false
          = Except.error [⟨ErrSpan.callSite, "bad tokens"⟩])
    ∧ containsAllowedRepr
        [⟨"repr", Except.error ⟨ErrSpan.callSite, "bad tokens"⟩⟩,
         ⟨"repr", Except.ok ["C"]⟩] = true
    ∧ derive ⟨"Foo", [⟨"repr", Except.error ⟨ErrSpan.callSite, "bad tokens"⟩⟩,
          ⟨"repr", Except.ok ["C"]⟩], DataShape.enumData⟩ ⟨[], []⟩ false
        = Except.error [⟨ErrSpan.callSite, enumErrorMessage⟩] :=
  ⟨⟨rfl, by decide,
    (C9_repr_preemption "Foo"
        [⟨"repr", Except.error ⟨ErrSpan.callSite, "bad tokens"⟩⟩]
        DataShape.enumData ⟨[], []⟩ false).1 rfl (by decide)⟩,
   rfl,
   (C9_repr_preemption "Foo"
       [⟨"repr", Except.error ⟨ErrSpan.callSite, "bad tokens"⟩⟩,
        ⟨"repr", Except.ok ["C"]⟩]
       DataShape.enumData ⟨[], []⟩ false).2 rfl rfl⟩

theorem remainingFields_key_ne (fields_meta : FieldAttributes)
    (fs : FieldsShape) (f : IdentOrIndex)
    (hf : memberOf f fields_meta.zero_size_fields = true) :
    ∀ q ∈ remainingFields fields_meta fs, q.1 ≠ f := by
  intro q hq hqf
  have hp := (List.mem_filter.mp hq).2
  rw [hqf] at hp
  simp [hf] at hp

/-- Shadowing the override map with an entry for a key absent from the field
list leaves the channel loop unchanged. -/
theorem channelLoop_shadow (substitutes : List (IdentOrIndex × String))
    (f : IdentOrIndex) (tyf : String) (fields : List (IdentOrIndex × String))
    (n : Nat) (ft : Option String) (errors : List SynError)
    (hall : ∀ q ∈ fields, q.1 ≠ f) :
    channelLoop ((f, tyf) :: substitutes) fields n ft errors
      = channelLoop substitutes fields n ft errors := by
  induction fields generalizing n ft errors with
  | nil => rfl
  | cons field rest ih =>
    have hfield : field.1 ≠ f := hall field (List.mem_cons_self field rest)
    have hresolve : resolveTy ((f, tyf) :: substitutes) field
        = resolveTy substitutes field := by
      simp [resolveTy, lookupSubstitute, Ne.symm hfield]
    have hrest : ∀ q ∈ rest, q.1 ≠ f :=
      fun q hq => hall q (List.mem_cons_of_mem field hq)
    have ihr : ∀ (m : Nat) (ft2 : Option String) (errs2 : List SynError),
        channelLoop ((f, tyf) :: substitutes) rest m ft2 errs2
          = channelLoop substitutes rest m ft2 errs2 :=
      fun m ft2 errs2 => ih m ft2 errs2 hrest
    cases ft with
    | none => simp [channelLoop, hresolve, ihr]
    | some expected =>
      by_cases h : expected ≠ resolveTy substitutes field
      · simp [channelLoop, hresolve, if_pos h, ihr]
      · simp [channelLoop, hresolve, if_neg h, ihr]

/-- C10: for a field that is both in the excluded-field set and in the
type-override map, exclusion wins: prepending an override for that field
changes nothing about the generator's output, the field is absent from the
remaining (channel) fields, and so its override never influences the expected
channel type or any homogeneity diagnostic. -/
theorem C10_exclusion_wins (input : DeriveInput)
    (fields_meta : FieldAttributes) (internal : Bool) (f : IdentOrIndex)
    (tyf : String) (hf : memberOf f fields_meta.zero_size_fields = true) :
    derive input
        ⟨fields_meta.zero_size_fields, (f, tyf) :: fields_meta.type_substitutes⟩
        internal
      = derive input fields_meta internal
    ∧ ∀ fs, input.data = DataShape.structData fs →
        ∀ q ∈ remainingFields fields_meta fs, q.1 ≠ f := by
  obtain ⟨ident, attrs, data⟩ := input
  refine ⟨?_, ?_⟩
  · cases hrepr : is_allowed_repr attrs with
    | error errs => simp [derive, hrepr]
    | ok allowed =>
      cases data with
      | enumData => simp [derive, hrepr]
      | unionData => simp [derive, hrepr]
      | structData fs =>
        have hall := remainingFields_key_ne fields_meta fs f hf
        have hre : remainingFields
            ⟨fields_meta.zero_size_fields, (f, tyf) :: fields_meta.type_substitutes⟩
            fs = remainingFields fields_meta fs := rfl
        have hloop := channelLoop_shadow fields_meta.type_substitutes f tyf
          (remainingFields fields_meta fs) 0 none [] hall
        simp only [derive, hrepr, hre, hloop]
  · intro fs hd q hq
    exact remainingFields_key_ne fields_meta fs f hf q hq

theorem C10_exclusion_wins_witness :
    memberOf (IdentOrIndex.ident "standard")
        [IdentOrIndex.ident "standard"] = true
    ∧ derive ⟨"Rgba", [⟨"repr", Except.ok ["C"]⟩],
          DataShape.structData (FieldsShape.named
            [⟨some "red", "f32"⟩, ⟨some "green", "f32"⟩,
             ⟨some "standard", "PhantomData"⟩])⟩
        ⟨[IdentOrIndex.ident "standard"],
         [(IdentOrIndex.ident "standard", "u8")]⟩ false
      = derive ⟨"Rgba", [⟨"repr", Except.ok ["C"]⟩],
          DataShape.structData (FieldsShape.named
            [⟨some "red", "f32"⟩, ⟨some "green", "f32"⟩,
             ⟨some "standard", "PhantomData"⟩])⟩
        ⟨[IdentOrIndex.ident "standard"], []⟩ false :=
  ⟨rfl,
   (C10_exclusion_wins
     ⟨"Rgba", [⟨"repr", Except.ok ["C"]⟩],
       DataShape.structData (FieldsShape.named
         [⟨some "red", "f32"⟩, ⟨some "green", "f32"⟩,
          ⟨some "standard", "PhantomData"⟩])⟩
     ⟨[IdentOrIndex.ident "standard"], []⟩ false
     (IdentOrIndex.ident "standard") "u8" rfl).1⟩

end Palette
